import Mathlib

/-!
# Verification of the `clock-wifi` timekeeping core

A shallow embedding of the time representation of the clock (`ClockTime`), its
message protocol (`ClockNotice`) and the display-mode state machine
(`ClockState`), translated from `src/clock_time.rs`, `src/clock.rs` and
`src/clock_state.rs`.

Machine-integer semantics: durations are `u64` tick counts, modelled as `Nat`
with explicit `% 2 ^ 64` where the Rust code can wrap, and `i32`/`i64`
arithmetic is modelled on `Int` with explicit twos-complement wrapping.
`embassy_time::Duration` addition and subtraction are checked (they panic on
overflow/underflow), so the operations that use them return `Option`, with
`none` marking a panic.

The development is parametric in `tps`, the hardware tick rate in ticks per
second (`embassy_time::TICK_HZ`, a compile-time non-zero constant).
-/

namespace ClockWifi

/-- The `u64` wraparound modulus. -/
def U64 : Nat := 2 ^ 64

/-- Twos-complement wrapping of an integer into the `i32` range. -/
def i32wrap (x : Int) : Int := (x + 2 ^ 31) % 2 ^ 32 - 2 ^ 31

/-- Twos-complement wrapping of an integer into the `i64` range. -/
def i64wrap (x : Int) : Int := (x + 2 ^ 63) % 2 ^ 64 - 2 ^ 63

/-- The Rust `as u64` cast of a signed value: reduction modulo `2 ^ 64`. -/
def castU64 (x : Int) : Nat := (x % (2 ^ 64 : Int)).toNat

/-- Modelled from the spec: `shared_constants.rs` is not under `src/`; the spec
says `ticks_per_day` is a compile-time non-zero constant ("all arithmetic is
unsigned-duration modulo one day"). One day is 86400 seconds of `tps` ticks
each. -/
def TICKS_IN_ONE_DAY (tps : Nat) : Nat := 86400 * tps

/-- Modelled from the spec: `shared_constants.rs` is not under `src/`; the
constant `ONE_MINUTE` is the duration of one minute, i.e. 60 seconds of
ticks. -/
def ONE_MINUTE (tps : Nat) : Nat := 60 * tps

/-- `embassy_time::Duration::from_millis`: `millis * TICK_HZ / 1000` with the
unchecked `u64` multiply wrapping modulo `2 ^ 64`. -/
def durFromMillis (tps ms : Nat) : Nat := ms * tps % U64 / 1000

/-- `embassy_time::Duration::from_secs`: `secs * TICK_HZ` with the unchecked
`u64` multiply wrapping modulo `2 ^ 64`. -/
def durFromSecs (tps s : Nat) : Nat := s * tps % U64

/-- The system time plus an offset, from `clock_time.rs`: `offset` is a
`Duration` (a `u64` tick count) and `utc_offset_minutes` an `i32`. -/
structure ClockTime where
  offset : Nat
  utc_offset_minutes : Int
deriving DecidableEq, Repr

/-- `ClockTime::default`: offset representing 12:00:00 and a compile-time UTC
offset in minutes (`UTC_OFFSET_MINUTES`, 0 when absent), here a parameter. -/
def ClockTime.defaultTime (tps : Nat) (utc_env : Int) : ClockTime :=
  { offset := durFromMillis tps (12 * 3600 * 1000), utc_offset_minutes := utc_env }

/-- `ClockTime::now`: `(Instant::now().as_ticks() % TICKS_IN_ONE_DAY
+ offset.as_ticks() % TICKS_IN_ONE_DAY) % TICKS_IN_ONE_DAY`, with the current
monotonic instant passed explicitly. -/
def ClockTime.now (ct : ClockTime) (tps instant : Nat) : Nat :=
  (instant % TICKS_IN_ONE_DAY tps + ct.offset % TICKS_IN_ONE_DAY tps) % TICKS_IN_ONE_DAY tps

/-- `ClockTime::till_next`: `unit_ticks - time_ticks % unit_ticks`. -/
def ClockTime.till_next (time unit : Nat) : Nat := unit - time % unit

/-- `ClockTime::set_from_unix`: converts a Unix timestamp (an `i64`) to local
seconds using the stored UTC offset, takes the truncated `i64` remainder by
86400, casts it `as u64`, scales to milliseconds (wrapping), and solves
`offset = target - instant (mod one day)`. -/
def ClockTime.set_from_unix (ct : ClockTime) (tps instant : Nat) (unix_seconds : Int) : ClockTime :=
  let local_seconds := i64wrap (unix_seconds + ct.utc_offset_minutes * 60)
  let seconds_since_midnight := castU64 (local_seconds.tmod 86400)
  let millis_since_midnight := seconds_since_midnight * 1000 % U64
  let current_instant_ticks := instant % TICKS_IN_ONE_DAY tps
  let target_ticks := durFromMillis tps millis_since_midnight % TICKS_IN_ONE_DAY tps
  let offset_ticks :=
    if current_instant_ticks ≤ target_ticks then target_ticks - current_instant_ticks
    else TICKS_IN_ONE_DAY tps + target_ticks - current_instant_ticks
  { ct with offset := offset_ticks % TICKS_IN_ONE_DAY tps }

/-- `ClockTime::utc_offset_hours`: the stored minutes rounded to the nearest
hour with ties away from zero, using Rust (truncated) `i32` division. -/
def ClockTime.utc_offset_hours (ct : ClockTime) : Int :=
  if 0 ≤ ct.utc_offset_minutes then (i32wrap (ct.utc_offset_minutes + 30)).tdiv 60
  else (i32wrap (ct.utc_offset_minutes - 30)).tdiv 60

/-- `ClockTime::adjust_utc_offset_hours`: wraps the new offset into the
27-value wheel `[-12, +14]` and shifts the display offset by the resulting
delta. The shift uses `embassy_time::Duration` `+=`/`-=`, which are checked
and panic on `u64` overflow/underflow; a panic is modelled as `none`. -/
def ClockTime.adjust_utc_offset_hours (ct : ClockTime) (tps : Nat) (hours : Int) : Option ClockTime :=
  let current_offset_hours := ct.utc_offset_hours
  let new_offset_hours := i32wrap (current_offset_hours + hours)
  let wrapped := ((i32wrap (new_offset_hours + 12)).tmod 27 + 27).tmod 27 - 12
  let delta_hours := wrapped - current_offset_hours
  if 0 ≤ delta_hours then
    let add := durFromSecs tps (castU64 (i32wrap (delta_hours * 3600)))
    if ct.offset + add < U64 then
      some { offset := ct.offset + add, utc_offset_minutes := wrapped * 60 }
    else none
  else
    let sub := durFromSecs tps (castU64 (i32wrap (-delta_hours * 3600)))
    if sub ≤ ct.offset then
      some { offset := ct.offset - sub, utc_offset_minutes := wrapped * 60 }
    else none

/-- `impl AddAssign<Duration> for ClockTime`: `offset = (offset % one_day
+ duration % one_day) % one_day`. -/
def ClockTime.add_assign (ct : ClockTime) (tps d : Nat) : ClockTime :=
  { ct with
    offset := (ct.offset % TICKS_IN_ONE_DAY tps + d % TICKS_IN_ONE_DAY tps) % TICKS_IN_ONE_DAY tps }

/-- The display-mode state machine states, from `clock_state.rs`. -/
inductive ClockState where
  | HoursMinutes
  | MinutesSeconds
  | EditUtcOffset
deriving DecidableEq, Repr

/-- The message protocol of the clock task, from `clock.rs`. -/
inductive ClockNotice where
  | SetState (s : ClockState)
  | SetTimeFromUnix (unix_seconds : Int)
  | AdjustClockTime (delta : Nat)
  | ResetSeconds
  | AdjustUtcOffsetHours (hours : Int)
deriving DecidableEq, Repr

/-- `ClockNotice::apply`: dispatches a message to the live
`(ClockTime, ClockState)` pair; `none` marks a panic inside the mutation. -/
def ClockNotice.apply (n : ClockNotice) (tps instant : Nat) (ct : ClockTime) (cs : ClockState) :
    Option (ClockTime × ClockState) :=
  match n with
  | .SetTimeFromUnix u => some (ct.set_from_unix tps instant u, cs)
  | .AdjustClockTime d => some (ct.add_assign tps d, cs)
  | .SetState s => some (ct, s)
  | .ResetSeconds =>
      some (ct.add_assign tps (ClockTime.till_next (ct.now tps instant) (ONE_MINUTE tps)), cs)
  | .AdjustUtcOffsetHours h => (ct.adjust_utc_offset_hours tps h).map (fun ct2 => (ct2, cs))

/-- Modelled from the spec: `button.rs` is not under `src/`; the button
collaborator classifies a completed press as short or long. -/
inductive PressDuration where
  | Short
  | Long
deriving DecidableEq, Repr

/-- Modelled from the spec: `time_sync.rs` is not under `src/`; the time-sync
collaborator yields success-with-unix-timestamp or failure-with-message. -/
inductive TimeSyncEvent where
  | Success (unix_seconds : Int)
  | Failed (msg : String)
deriving DecidableEq, Repr

/-- The outcome of the `select` race in `execute`: either the button press
classification resolved first, or a time-sync event did. -/
inductive UiEvent where
  | button (p : PressDuration)
  | sync (e : TimeSyncEvent)
deriving DecidableEq, Repr

/-- `ClockState::handle_time_sync_event`: the messages it sends to the clock
(success sends the new unix time; failure is only logged). -/
def handle_time_sync_event : TimeSyncEvent → List ClockNotice
  | .Success u => [ClockNotice.SetTimeFromUnix u]
  | .Failed _ => []

/-- `ClockState::execute_hours_minutes`: sends `SetState(self)` on entry, then
acts on whichever of button press and time-sync event resolved first.
Returns the next state and the messages sent, in order. -/
def ClockState.execute_hours_minutes (ev : UiEvent) : ClockState × List ClockNotice :=
  match ev with
  | .button .Short => (.MinutesSeconds, [ClockNotice.SetState .HoursMinutes])
  | .button .Long => (.EditUtcOffset, [ClockNotice.SetState .HoursMinutes])
  | .sync e => (.HoursMinutes, ClockNotice.SetState .HoursMinutes :: handle_time_sync_event e)

/-- `ClockState::execute_minutes_seconds`: as `execute_hours_minutes`, with
the short-press target being `HoursMinutes`. -/
def ClockState.execute_minutes_seconds (ev : UiEvent) : ClockState × List ClockNotice :=
  match ev with
  | .button .Short => (.HoursMinutes, [ClockNotice.SetState .MinutesSeconds])
  | .button .Long => (.EditUtcOffset, [ClockNotice.SetState .MinutesSeconds])
  | .sync e => (.MinutesSeconds, ClockNotice.SetState .MinutesSeconds :: handle_time_sync_event e)

/-- `ClockState::execute_edit_utc_offset`: waits only on the button; a short
press sends `AdjustUtcOffsetHours(1)` and re-announces the state, a long
press returns to `HoursMinutes`. -/
def ClockState.execute_edit_utc_offset (p : PressDuration) : ClockState × List ClockNotice :=
  match p with
  | .Short =>
      (.EditUtcOffset,
       [ClockNotice.SetState .EditUtcOffset, ClockNotice.AdjustUtcOffsetHours 1,
        ClockNotice.SetState .EditUtcOffset])
  | .Long => (.HoursMinutes, [ClockNotice.SetState .EditUtcOffset])

/-- `ClockState::execute`: dispatch on the current state. In `EditUtcOffset`
the time-sync collaborator is not awaited, so a sync event cannot be the
resolved outcome there (`none`). -/
def ClockState.execute (s : ClockState) (ev : UiEvent) : Option (ClockState × List ClockNotice) :=
  match s with
  | .HoursMinutes => some (ClockState.execute_hours_minutes ev)
  | .MinutesSeconds => some (ClockState.execute_minutes_seconds ev)
  | .EditUtcOffset =>
      match ev with
      | .button p => some (ClockState.execute_edit_utc_offset p)
      | .sync _ => none

/-- Applies a list of messages in order to a live `(ClockTime, ClockState)`
pair, propagating a panic (`none`) from any message. -/
def applyAll (tps instant : Nat) (msgs : List ClockNotice) (p : ClockTime × ClockState) :
    Option (ClockTime × ClockState) :=
  msgs.foldlM (fun q n => ClockNotice.apply n tps instant q.1 q.2) p

/-! ## Helper lemmas -/

lemma mod_add_mod3 (D a b : Nat) : (a % D + b % D) % D = (a + b) % D :=
  (Nat.add_mod a b D).symm

lemma ticks_in_one_day_pos {tps : Nat} (htps : 0 < tps) : 0 < TICKS_IN_ONE_DAY tps := by
  unfold TICKS_IN_ONE_DAY
  omega

lemma now_eq (ct : ClockTime) (tps instant : Nat) :
    ct.now tps instant = (instant + ct.offset) % TICKS_IN_ONE_DAY tps := by
  unfold ClockTime.now
  exact mod_add_mod3 _ _ _

lemma now_lt {tps : Nat} (ct : ClockTime) (instant : Nat) (htps : 0 < tps) :
    ct.now tps instant < TICKS_IN_ONE_DAY tps :=
  Nat.mod_lt _ (ticks_in_one_day_pos htps)

lemma now_add_assign (ct : ClockTime) (tps instant d : Nat) :
    (ct.add_assign tps d).now tps instant = (ct.now tps instant + d) % TICKS_IN_ONE_DAY tps := by
  rw [now_eq, now_eq]
  unfold ClockTime.add_assign
  have h1 : (ct.offset % TICKS_IN_ONE_DAY tps + d % TICKS_IN_ONE_DAY tps) % TICKS_IN_ONE_DAY tps
      = (ct.offset + d) % TICKS_IN_ONE_DAY tps := mod_add_mod3 _ _ _
  simp only [h1]
  have e1 : (instant + (ct.offset + d) % TICKS_IN_ONE_DAY tps) % TICKS_IN_ONE_DAY tps
      = (instant + (ct.offset + d)) % TICKS_IN_ONE_DAY tps :=
    Nat.ModEq.add_left instant (Nat.mod_modEq _ _)
  have e2 : ((instant + ct.offset) % TICKS_IN_ONE_DAY tps + d) % TICKS_IN_ONE_DAY tps
      = (instant + ct.offset + d) % TICKS_IN_ONE_DAY tps :=
    Nat.ModEq.add_right d (Nat.mod_modEq _ _)
  rw [e1, e2, Nat.add_assoc]

lemma i32wrap_eq_self {x : Int} (h1 : -(2 ^ 31) ≤ x) (h2 : x < 2 ^ 31) : i32wrap x = x := by
  unfold i32wrap
  omega

lemma i64wrap_eq_self {x : Int} (h1 : -(2 ^ 63) ≤ x) (h2 : x < 2 ^ 63) : i64wrap x = x := by
  unfold i64wrap
  omega

lemma castU64_of_nonneg {x : Int} (h1 : 0 ≤ x) (h2 : x < 2 ^ 64) : castU64 x = x.toNat := by
  unfold castU64
  rw [Int.emod_eq_of_lt h1 h2]

lemma solve_now (D instant target : Nat) (hD : 0 < D) (ht : target < D) :
    (instant +
      (if instant % D ≤ target then target - instant % D
       else D + target - instant % D) % D) % D = target := by
  obtain ⟨q, r, hr, rfl⟩ : ∃ q r, r < D ∧ instant = D * q + r :=
    ⟨instant / D, instant % D, Nat.mod_lt _ hD, (Nat.div_add_mod instant D).symm⟩
  have hmod : (D * q + r) % D = r := by
    rw [Nat.mul_add_mod]
    exact Nat.mod_eq_of_lt hr
  rw [hmod]
  by_cases h : r ≤ target
  · rw [if_pos h]
    have h2 : (target - r) % D = target - r := Nat.mod_eq_of_lt (by omega)
    rw [h2]
    have h3 : D * q + r + (target - r) = D * q + target := by
      have hsub : r + (target - r) = target := by omega
      rw [Nat.add_assoc, hsub]
    rw [h3, Nat.mul_add_mod]
    exact Nat.mod_eq_of_lt ht
  · rw [if_neg h]
    have h2 : (D + target - r) % D = D + target - r := Nat.mod_eq_of_lt (by omega)
    rw [h2]
    have h3 : D * q + r + (D + target - r) = D * (q + 1) + target := by
      rw [Nat.mul_add, Nat.mul_one]
      have hsub : r + (D + target - r) = D + target := by omega
      rw [Nat.add_assoc, hsub, ← Nat.add_assoc]
    rw [h3, Nat.mul_add_mod]
    exact Nat.mod_eq_of_lt ht

lemma utc_offset_hours_aligned (ct : ClockTime) (k : Int)
    (hmin : ct.utc_offset_minutes = 60 * k) (h1 : -12 ≤ k) (h2 : k ≤ 14) :
    ct.utc_offset_hours = k := by
  unfold ClockTime.utc_offset_hours
  rw [hmin]
  by_cases hk : (0 : Int) ≤ 60 * k
  · rw [if_pos hk, i32wrap_eq_self (by omega) (by omega)]
    rw [Int.tdiv_eq_ediv (by omega) (by omega)]
    rw [show (60 * k + 30 : Int) = 30 + k * 60 by ring]
    rw [Int.add_mul_ediv_right 30 k (by omega)]
    omega
  · rw [if_neg hk, i32wrap_eq_self (by omega) (by omega)]
    rw [show (60 * k - 30 : Int) = -(30 + -k * 60) by ring, Int.neg_tdiv]
    rw [Int.tdiv_eq_ediv (by omega) (by omega)]
    rw [Int.add_mul_ediv_right 30 (-k) (by omega)]
    omega

lemma tmod_of_nonneg_lt {a b : Int} (h1 : 0 ≤ a) (h2 : a < b) : a.tmod b = a := by
  rw [Int.tmod_eq_emod h1 (by omega), Int.emod_eq_of_lt h1 h2]

lemma wheel_id (x : Int) (h1 : -12 ≤ x) (h2 : x ≤ 14) :
    ((i32wrap (x + 12)).tmod 27 + 27).tmod 27 - 12 = x := by
  rw [i32wrap_eq_self (by omega) (by omega)]
  rw [tmod_of_nonneg_lt (a := x + 12) (by omega) (by omega)]
  rw [Int.tmod_eq_emod (by omega) (by omega)]
  omega

lemma adjust_plus_one (tps : Nat) (ct : ClockTime) (k : Int)
    (hmin : ct.utc_offset_minutes = 60 * k) (hk1 : -12 ≤ k) (hk2 : k ≤ 13)
    (hfit : ct.offset + 3600 * tps < 2 ^ 64) :
    ct.adjust_utc_offset_hours tps 1 = some ⟨ct.offset + 3600 * tps, (k + 1) * 60⟩ := by
  have hcur := utc_offset_hours_aligned ct k hmin (by omega) (by omega)
  simp only [ClockTime.adjust_utc_offset_hours, hcur]
  rw [i32wrap_eq_self (x := k + 1) (by omega) (by omega)]
  rw [wheel_id (k + 1) (by omega) (by omega)]
  rw [show (k + 1 - k : Int) = 1 from by ring]
  rw [if_pos (by norm_num : (0 : Int) ≤ 1)]
  rw [show ((1 : Int) * 3600) = 3600 from by norm_num]
  rw [i32wrap_eq_self (x := 3600) (by norm_num) (by norm_num)]
  rw [show castU64 3600 = 3600 from by decide]
  simp only [durFromSecs, U64]
  rw [Nat.mod_eq_of_lt (show 3600 * tps < 2 ^ 64 by omega)]
  rw [if_pos hfit]

lemma adjust_minus_one (tps : Nat) (ct : ClockTime) (k : Int)
    (hmin : ct.utc_offset_minutes = 60 * k) (hk1 : -11 ≤ k) (hk2 : k ≤ 14)
    (hsub : 3600 * tps ≤ ct.offset) (hfit : 3600 * tps < 2 ^ 64) :
    ct.adjust_utc_offset_hours tps (-1) = some ⟨ct.offset - 3600 * tps, (k - 1) * 60⟩ := by
  have hcur := utc_offset_hours_aligned ct k hmin (by omega) (by omega)
  simp only [ClockTime.adjust_utc_offset_hours, hcur]
  rw [i32wrap_eq_self (x := k + -1) (by omega) (by omega)]
  rw [wheel_id (k + -1) (by omega) (by omega)]
  rw [show (k + -1 - k : Int) = -1 from by ring]
  rw [if_neg (by norm_num : ¬ (0 : Int) ≤ -1)]
  rw [show (-(-1 : Int) * 3600) = 3600 from by norm_num]
  rw [i32wrap_eq_self (x := 3600) (by norm_num) (by norm_num)]
  rw [show castU64 3600 = 3600 from by decide]
  simp only [durFromSecs, U64]
  rw [Nat.mod_eq_of_lt (show 3600 * tps < 2 ^ 64 by omega)]
  rw [if_pos hsub]
  rw [show (k + -1 : Int) = k - 1 from by ring]

/-! ## Claim theorems -/

/-- **C6**: for all durations `d` and units `u > 0` (in ticks), `till_next d u`
equals `u - d % u`, is strictly positive, completes `d` to an exact multiple
of `u`, and returns a full unit when `d` already sits on a boundary. -/
theorem C6_till_next_forward_progress (d u : Nat) (hu : 0 < u) :
    ClockTime.till_next d u = u - d % u ∧
    0 < ClockTime.till_next d u ∧
    (d + ClockTime.till_next d u) % u = 0 ∧
    (d % u = 0 → ClockTime.till_next d u = u) := by
  have h1 : d % u < u := Nat.mod_lt _ hu
  have h2 : u * (d / u) + d % u = d := Nat.div_add_mod d u
  have key : d + ClockTime.till_next d u = u * (d / u + 1) := by
    unfold ClockTime.till_next
    rw [Nat.mul_add, Nat.mul_one]
    generalize u * (d / u) = m at h2
    generalize d % u = r at h1 h2 ⊢
    omega
  refine ⟨rfl, ?_, ?_, ?_⟩
  · unfold ClockTime.till_next
    generalize d % u = r at h1 ⊢
    omega
  · rw [key]
    exact Nat.mul_mod_right u _
  · intro h0
    unfold ClockTime.till_next
    rw [h0]
    exact Nat.sub_zero u

/-- Witness for C6 at `d = 120`, `u = 60` (a boundary point). -/
theorem C6_till_next_forward_progress_witness :
    ClockTime.till_next 120 60 = 60 - 120 % 60 ∧
    0 < ClockTime.till_next 120 60 ∧
    (120 + ClockTime.till_next 120 60) % 60 = 0 ∧
    (120 % 60 = 0 → ClockTime.till_next 120 60 = 60) :=
  C6_till_next_forward_progress 120 60 (by decide)

/-- **C7**: for every stored offset, UTC-offset value and monotonic tick
count, `now()` equals `(monotonic_ticks + offset) % ticks_per_day` and always
lies in `[0, ticks_per_day)`. -/
theorem C7_now_pure_and_in_range (tps instant : Nat) (ct : ClockTime) (htps : 0 < tps) :
    ct.now tps instant = (instant + ct.offset) % TICKS_IN_ONE_DAY tps ∧
    ct.now tps instant < TICKS_IN_ONE_DAY tps :=
  ⟨now_eq ct tps instant, now_lt ct instant htps⟩

/-- Witness for C7 at `tps = 1000000`, `instant = 123456789`,
`offset = 43200000000`. -/
theorem C7_now_pure_and_in_range_witness :
    ClockTime.now ⟨43200000000, 0⟩ 1000000 123456789 =
      (123456789 + (43200000000 : Nat)) % TICKS_IN_ONE_DAY 1000000 ∧
    ClockTime.now ⟨43200000000, 0⟩ 1000000 123456789 < TICKS_IN_ONE_DAY 1000000 :=
  C7_now_pure_and_in_range 1000000 123456789 ⟨43200000000, 0⟩ (by decide)

/-- **C8**: `ClockState::execute` follows the button transition table: short
press toggles `HoursMinutes`/`MinutesSeconds`, long press enters
`EditUtcOffset` from either face, long press in `EditUtcOffset` returns to
`HoursMinutes`, and short press in `EditUtcOffset` stays there while sending
exactly one `AdjustUtcOffsetHours(1)` message. -/
theorem C8_button_transition_table :
    ClockState.execute .HoursMinutes (.button .Short) =
      some (.MinutesSeconds, [ClockNotice.SetState .HoursMinutes]) ∧
    ClockState.execute .HoursMinutes (.button .Long) =
      some (.EditUtcOffset, [ClockNotice.SetState .HoursMinutes]) ∧
    ClockState.execute .MinutesSeconds (.button .Short) =
      some (.HoursMinutes, [ClockNotice.SetState .MinutesSeconds]) ∧
    ClockState.execute .MinutesSeconds (.button .Long) =
      some (.EditUtcOffset, [ClockNotice.SetState .MinutesSeconds]) ∧
    ClockState.execute .EditUtcOffset (.button .Long) =
      some (.HoursMinutes, [ClockNotice.SetState .EditUtcOffset]) ∧
    ClockState.execute .EditUtcOffset (.button .Short) =
      some (.EditUtcOffset,
        [ClockNotice.SetState .EditUtcOffset, ClockNotice.AdjustUtcOffsetHours 1,
         ClockNotice.SetState .EditUtcOffset]) ∧
    (ClockState.execute_edit_utc_offset .Short).2.filter
        (fun n => match n with | ClockNotice.AdjustUtcOffsetHours _ => true | _ => false) =
      [ClockNotice.AdjustUtcOffsetHours 1] := by
  refine ⟨rfl, rfl, rfl, rfl, rfl, rfl, rfl⟩

/-- **C9**: a time-sync failure received in `MinutesSeconds` (or
`HoursMinutes`) is only logged: `execute` returns the same state, and the
messages it sent, applied to the live pair, leave the `ClockTime`
byte-for-byte unchanged and the state unchanged. -/
theorem C9_sync_failure_only_logged (m : String) (tps instant : Nat) (ct : ClockTime) :
    ClockState.execute .MinutesSeconds (.sync (.Failed m)) =
      some (.MinutesSeconds, [ClockNotice.SetState .MinutesSeconds]) ∧
    ClockState.execute .HoursMinutes (.sync (.Failed m)) =
      some (.HoursMinutes, [ClockNotice.SetState .HoursMinutes]) ∧
    applyAll tps instant [ClockNotice.SetState .MinutesSeconds] (ct, .MinutesSeconds) =
      some (ct, .MinutesSeconds) ∧
    applyAll tps instant [ClockNotice.SetState .HoursMinutes] (ct, .HoursMinutes) =
      some (ct, .HoursMinutes) :=
  ⟨rfl, rfl, rfl, rfl⟩

/-- **C10**: applying `ResetSeconds` never panics and advances the displayed
time strictly forward, by at most one minute, to an exact minute boundary. -/
theorem C10_reset_seconds_to_minute_boundary (tps instant : Nat) (ct : ClockTime)
    (cs : ClockState) (htps : 0 < tps) :
    ∃ ct2, ClockNotice.apply .ResetSeconds tps instant ct cs = some (ct2, cs) ∧
      0 < ClockTime.till_next (ct.now tps instant) (ONE_MINUTE tps) ∧
      ClockTime.till_next (ct.now tps instant) (ONE_MINUTE tps) ≤ ONE_MINUTE tps ∧
      ct2.now tps instant =
        (ct.now tps instant + ClockTime.till_next (ct.now tps instant) (ONE_MINUTE tps)) %
          TICKS_IN_ONE_DAY tps ∧
      ct2.now tps instant % ONE_MINUTE tps = 0 := by
  have hm : 0 < ONE_MINUTE tps := by
    unfold ONE_MINUTE
    omega
  set n := ct.now tps instant with hn
  set s := ClockTime.till_next n (ONE_MINUTE tps) with hs
  have hmod : n % ONE_MINUTE tps < ONE_MINUTE tps := Nat.mod_lt _ hm
  have hpos : 0 < s := by
    rw [hs]
    unfold ClockTime.till_next
    generalize n % ONE_MINUTE tps = r at hmod ⊢
    omega
  have hle : s ≤ ONE_MINUTE tps := by
    rw [hs]
    unfold ClockTime.till_next
    omega
  have hdvd : ONE_MINUTE tps ∣ TICKS_IN_ONE_DAY tps := ⟨1440, by unfold ONE_MINUTE TICKS_IN_ONE_DAY; ring⟩
  refine ⟨ct.add_assign tps s, rfl, hpos, hle, now_add_assign ct tps instant s, ?_⟩
  rw [now_add_assign ct tps instant s]
  rw [Nat.mod_mod_of_dvd _ hdvd]
  have key : n + s = ONE_MINUTE tps * (n / ONE_MINUTE tps + 1) := by
    rw [hs]
    unfold ClockTime.till_next
    rw [Nat.mul_add, Nat.mul_one]
    have h2 : ONE_MINUTE tps * (n / ONE_MINUTE tps) + n % ONE_MINUTE tps = n :=
      Nat.div_add_mod n (ONE_MINUTE tps)
    generalize ONE_MINUTE tps * (n / ONE_MINUTE tps) = M at h2 ⊢
    generalize n % ONE_MINUTE tps = r at hmod h2 ⊢
    omega
  rw [key]
  exact Nat.mul_mod_right _ _

/-- Witness for C10 at `tps = 1000000`, `instant = 123456789`,
`ct = ⟨43200000555, 0⟩`. -/
theorem C10_reset_seconds_to_minute_boundary_witness :
    ∃ ct2,
      ClockNotice.apply .ResetSeconds 1000000 123456789 ⟨43200000555, 0⟩ .HoursMinutes =
        some (ct2, .HoursMinutes) ∧
      0 < ClockTime.till_next (ClockTime.now ⟨43200000555, 0⟩ 1000000 123456789)
          (ONE_MINUTE 1000000) ∧
      ClockTime.till_next (ClockTime.now ⟨43200000555, 0⟩ 1000000 123456789)
          (ONE_MINUTE 1000000) ≤ ONE_MINUTE 1000000 ∧
      ct2.now 1000000 123456789 =
        (ClockTime.now ⟨43200000555, 0⟩ 1000000 123456789 +
          ClockTime.till_next (ClockTime.now ⟨43200000555, 0⟩ 1000000 123456789)
            (ONE_MINUTE 1000000)) % TICKS_IN_ONE_DAY 1000000 ∧
      ct2.now 1000000 123456789 % ONE_MINUTE 1000000 = 0 :=
  C10_reset_seconds_to_minute_boundary 1000000 123456789 ⟨43200000555, 0⟩ .HoursMinutes
    (by decide)

/-- **C1**: at a 1 MHz tick rate, from the scenario in the spec itself (UTC offset
`+14`, display offset 12:00:00, i.e. less than the 26-hour shift), the code
does not wrap-and-shift: the checked `Duration` subtraction underflows and
panics (`none`). The wrap-and-shift behaviour the claim describes occurs only
when the stored offset is at least 26 hours (second conjunct, offset 26 h):
there the UTC offset becomes `-12` (`-720` minutes) and `now()` moves by
`-26` hours modulo one day (from 2:00:00 to 0:00:00). -/
theorem C1_adjust_at_plus14_panics :
    ClockTime.adjust_utc_offset_hours ⟨43200000000, 840⟩ 1000000 1 = none ∧
    ClockTime.adjust_utc_offset_hours ⟨93600000000, 840⟩ 1000000 1 =
      some ⟨0, -720⟩ ∧
    ClockTime.now ⟨93600000000, 840⟩ 1000000 0 = 7200000000 ∧
    ClockTime.now ⟨0, -720⟩ 1000000 0 = 0 ∧
    (7200000000 + (86400000000 - 26 * 3600000000 % 86400000000)) % 86400000000 = 0 := by
  refine ⟨by decide, by decide, by decide, by decide, by decide⟩

/-- **C2**: applying `AdjustUtcOffsetHours(1)` to a reachable state (offset
12:00:00, within `[0, one day)`; UTC offset `+14`) panics: the required
shift is `-26` hours, which exceeds the stored offset, and the checked embassy
`Duration` subtraction aborts. The claim of infallibility is false of the
code. -/
theorem C2_apply_adjust_panics :
    ClockNotice.apply (.AdjustUtcOffsetHours 1) 1000000 0 ⟨43200000000, 840⟩ .HoursMinutes =
      none ∧
    43200000000 < TICKS_IN_ONE_DAY 1000000 := by
  refine ⟨by decide, by decide⟩

/-- **C3 counterexample**: from a state satisfying the invariant (offset 23 h
< one day), `adjust_utc_offset_hours(+2)` leaves offset 25 h, which is not
less than one day: the operation does not reduce modulo one day. -/
theorem C3_counterexample :
    ClockTime.adjust_utc_offset_hours ⟨82800000000, 0⟩ 1000000 2 =
      some ⟨90000000000, 120⟩ ∧
    82800000000 < TICKS_IN_ONE_DAY 1000000 ∧
    ¬ (90000000000 < TICKS_IN_ONE_DAY 1000000) := by
  refine ⟨by decide, by decide, by decide⟩

/-- **C3 amended**: the offset-below-one-day invariant holds of the default
state and is preserved by `set_from_unix` and `add_assign` (hence by
`AdjustClockTime` and `ResetSeconds` messages) — but not by
`adjust_utc_offset_hours`, which adds or subtracts the raw hour delta without
reducing modulo one day. -/
theorem C3_offset_invariant (tps : Nat) (htps : 0 < tps) (hfit : 43200000 * tps < 2 ^ 64) :
    (∀ utc_env : Int, (ClockTime.defaultTime tps utc_env).offset < TICKS_IN_ONE_DAY tps) ∧
    (∀ (ct : ClockTime) (instant : Nat) (u : Int),
      (ct.set_from_unix tps instant u).offset < TICKS_IN_ONE_DAY tps) ∧
    (∀ (ct : ClockTime) (d : Nat), (ct.add_assign tps d).offset < TICKS_IN_ONE_DAY tps) ∧
    (∀ (ct : ClockTime) (cs : ClockState) (instant d : Nat), ∃ ct2,
      ClockNotice.apply (.AdjustClockTime d) tps instant ct cs = some (ct2, cs) ∧
      ct2.offset < TICKS_IN_ONE_DAY tps) ∧
    (∀ (ct : ClockTime) (cs : ClockState) (instant : Nat), ∃ ct2,
      ClockNotice.apply .ResetSeconds tps instant ct cs = some (ct2, cs) ∧
      ct2.offset < TICKS_IN_ONE_DAY tps) := by
  have hD : 0 < TICKS_IN_ONE_DAY tps := ticks_in_one_day_pos htps
  have hadd : ∀ (ct : ClockTime) (d : Nat),
      (ct.add_assign tps d).offset < TICKS_IN_ONE_DAY tps := by
    intro ct d
    exact Nat.mod_lt _ hD
  refine ⟨?_, ?_, hadd, ?_, ?_⟩
  · intro utc_env
    show durFromMillis tps (12 * 3600 * 1000) < TICKS_IN_ONE_DAY tps
    unfold durFromMillis U64 TICKS_IN_ONE_DAY
    rw [show (12 * 3600 * 1000 : Nat) = 43200000 from by norm_num]
    rw [Nat.mod_eq_of_lt hfit]
    rw [show (43200000 : Nat) * tps = 43200 * tps * 1000 from by ring]
    rw [Nat.mul_div_cancel _ (by norm_num)]
    have := (Nat.mul_lt_mul_right htps).mpr (show 43200 < 86400 by norm_num)
    omega
  · intro ct instant u
    exact Nat.mod_lt _ hD
  · intro ct cs instant d
    exact ⟨ct.add_assign tps d, rfl, hadd ct d⟩
  · intro ct cs instant
    exact ⟨_, rfl, hadd ct _⟩

/-- Witness for C3 amended at `tps = 1`. -/
theorem C3_offset_invariant_witness :
    (∀ utc_env : Int, (ClockTime.defaultTime 1 utc_env).offset < TICKS_IN_ONE_DAY 1) ∧
    (∀ (ct : ClockTime) (instant : Nat) (u : Int),
      (ct.set_from_unix 1 instant u).offset < TICKS_IN_ONE_DAY 1) ∧
    (∀ (ct : ClockTime) (d : Nat), (ct.add_assign 1 d).offset < TICKS_IN_ONE_DAY 1) ∧
    (∀ (ct : ClockTime) (cs : ClockState) (instant d : Nat), ∃ ct2,
      ClockNotice.apply (.AdjustClockTime d) 1 instant ct cs = some (ct2, cs) ∧
      ct2.offset < TICKS_IN_ONE_DAY 1) ∧
    (∀ (ct : ClockTime) (cs : ClockState) (instant : Nat), ∃ ct2,
      ClockNotice.apply .ResetSeconds 1 instant ct cs = some (ct2, cs) ∧
      ct2.offset < TICKS_IN_ONE_DAY 1) :=
  C3_offset_invariant 1 (by decide) (by decide)

/-- **C4 counterexample**: with UTC offset `-60` minutes and `t = 0`, the
local time is negative; the code takes the truncated (negative) remainder,
casts it `as u64` and multiplies, wrapping to garbage: `now()` does not equal
the local time-of-day `((t + utc*60) mod 86400) = 82800` seconds implied by
the claim. -/
theorem C4_counterexample :
    ¬ ((ClockTime.set_from_unix ⟨0, -60⟩ 1000000 0 0).now 1000000 0 =
        (((0 : Int) + (-60) * 60) % 86400).toNat * 1000000) := by
  decide

/-- **C4 amended**: whenever the local time `t + utc_offset_minutes * 60` is
non-negative (and within `i64` range), `set_from_unix(t)` followed by `now()`
at the same monotonic instant yields exactly the local time-of-day in ticks,
with no rounding drift. -/
theorem C4_set_from_unix_exact (tps instant : Nat) (ct : ClockTime) (u : Int)
    (htps : 0 < tps) (hfit : 86400000 * tps < 2 ^ 64)
    (h0 : 0 ≤ u + ct.utc_offset_minutes * 60)
    (h1 : u + ct.utc_offset_minutes * 60 < 2 ^ 63) :
    (ct.set_from_unix tps instant u).now tps instant =
      ((u + ct.utc_offset_minutes * 60) % 86400).toNat * tps := by
  have hm0 : 0 ≤ (u + ct.utc_offset_minutes * 60) % 86400 :=
    Int.emod_nonneg _ (by norm_num)
  have hm1 : (u + ct.utc_offset_minutes * 60) % 86400 < 86400 :=
    Int.emod_lt_of_pos _ (by norm_num)
  have hs : ((u + ct.utc_offset_minutes * 60) % 86400).toNat < 86400 := by omega
  simp only [ClockTime.set_from_unix]
  rw [i64wrap_eq_self (x := u + ct.utc_offset_minutes * 60) (by omega) h1]
  rw [Int.tmod_eq_emod h0 (by norm_num)]
  rw [castU64_of_nonneg hm0 (by omega)]
  simp only [durFromMillis, U64, TICKS_IN_ONE_DAY]
  rw [Nat.mod_eq_of_lt
    (show ((u + ct.utc_offset_minutes * 60) % 86400).toNat * 1000 < 2 ^ 64 by omega)]
  rw [Nat.mod_eq_of_lt
    (show ((u + ct.utc_offset_minutes * 60) % 86400).toNat * 1000 * tps < 2 ^ 64 by
      have h2 : ((u + ct.utc_offset_minutes * 60) % 86400).toNat * 1000 * tps
          ≤ 86399000 * tps := Nat.mul_le_mul_right tps (by omega)
      have h3 : 86399000 * tps < 86400000 * tps := by omega
      omega)]
  rw [show ((u + ct.utc_offset_minutes * 60) % 86400).toNat * 1000 * tps
      = ((u + ct.utc_offset_minutes * 60) % 86400).toNat * tps * 1000 from by ring]
  rw [Nat.mul_div_cancel _ (show 0 < 1000 by norm_num)]
  have htarget : ((u + ct.utc_offset_minutes * 60) % 86400).toNat * tps < 86400 * tps :=
    (Nat.mul_lt_mul_right htps).mpr hs
  rw [Nat.mod_eq_of_lt htarget]
  rw [now_eq]
  simp only [TICKS_IN_ONE_DAY]
  exact solve_now (86400 * tps) instant _ (by omega) htarget

/-- Witness for C4 amended at `tps = 1`, `instant = 0`, `ct = ⟨0, 0⟩`,
`t = 0`. -/
theorem C4_set_from_unix_exact_witness :
    (ClockTime.set_from_unix ⟨0, 0⟩ 1 0 0).now 1 0 =
      (((0 : Int) + (0 : Int) * 60) % 86400).toNat * 1 :=
  C4_set_from_unix_exact 1 0 ⟨0, 0⟩ 0 (by decide) (by decide) (by decide) (by decide)

/-- **C5 counterexample**: (a) from a state whose stored UTC offset is not
hour-aligned (`30` minutes), applying `+1` then `-1` leaves
`utc_offset_minutes = 60 ≠ 30`: the stored UTC offset is not returned to its
original value (the code rounds to whole hours before adjusting); (b) from
UTC offset `+14` with offset 12:00:00, the first `+1` call already panics, so
the round trip cannot restore anything. -/
theorem C5_counterexample :
    (ClockTime.adjust_utc_offset_hours ⟨43200000000, 30⟩ 1000000 1).bind
        (fun ct => ct.adjust_utc_offset_hours 1000000 (-1)) =
      some ⟨43200000000, 60⟩ ∧
    (60 : Int) ≠ 30 ∧
    (ClockTime.adjust_utc_offset_hours ⟨43200000000, 840⟩ 1000000 1).bind
        (fun ct => ct.adjust_utc_offset_hours 1000000 (-1)) = none := by
  refine ⟨by decide, by decide, by decide⟩

/-- **C5 amended**: for every starting `ClockTime` whose stored UTC offset is
hour-aligned (`60 * k` minutes with `-12 ≤ k ≤ 13`, so the first call does
not hit the `+14` panic) and whose offset plus one hour fits in `u64`,
applying `+1` then `-1` returns the whole state — stored UTC offset, offset,
and hence the displayed `now()` — to its original value. -/
theorem C5_adjust_roundtrip (tps : Nat) (ct : ClockTime) (k : Int)
    (hmin : ct.utc_offset_minutes = 60 * k) (hk1 : -12 ≤ k) (hk2 : k ≤ 13)
    (hfit : ct.offset + 3600 * tps < 2 ^ 64) :
    ∃ mid, ct.adjust_utc_offset_hours tps 1 = some mid ∧
      mid.adjust_utc_offset_hours tps (-1) = some ct := by
  obtain ⟨off, minu⟩ := ct
  simp only at hmin hfit
  subst hmin
  refine ⟨⟨off + 3600 * tps, (k + 1) * 60⟩,
    adjust_plus_one tps ⟨off, 60 * k⟩ k rfl hk1 hk2 hfit, ?_⟩
  have h2 := adjust_minus_one tps ⟨off + 3600 * tps, (k + 1) * 60⟩ (k + 1)
      (by show (k + 1) * 60 = 60 * (k + 1); ring) (by omega) (by omega)
      (by show 3600 * tps ≤ off + 3600 * tps; omega) (by omega)
  rw [h2]
  rw [show off + 3600 * tps - 3600 * tps = off from by omega]
  rw [show ((k : Int) + 1 - 1) * 60 = 60 * k from by ring]

/-- Witness for C5 amended at `tps = 1000000`, `ct = ⟨43200000000, 300⟩`
(UTC offset `+5` hours), `k = 5`. -/
theorem C5_adjust_roundtrip_witness :
    ∃ mid, ClockTime.adjust_utc_offset_hours ⟨43200000000, 300⟩ 1000000 1 = some mid ∧
      mid.adjust_utc_offset_hours 1000000 (-1) = some ⟨43200000000, 300⟩ :=
  C5_adjust_roundtrip 1000000 ⟨43200000000, 300⟩ 5 (by decide) (by decide) (by decide)
    (by decide)

end ClockWifi
